import Mathlib

/-!
Shallow embedding of the symbol-resolution engine and signal-to-order
translator of `app/mt5_handler.py` (class `MT5Handler`), together with
theorems settling the specification claims about them.

Python strings are modelled as `List Char`; Python floats carrying prices
and volumes are modelled as rationals; the MetaTrader 5 terminal (module
`mt5`) is modelled as an explicit environment record of the primitives the
handler calls, and every broker call the handler performs is recorded in an
event trace so that "no broker work happened" claims are statable.
-/

namespace MT5

/-- Python strings, modelled as lists of characters. -/
abbrev Str := List Char

/-- ASCII single-character uppercasing, as `str.upper` acts on the
character range used by the handler (codes 97..122 map down by 32). -/
def pyUpperChar (c : Char) : Char :=
  if 97 ≤ c.toNat ∧ c.toNat ≤ 122 then Char.ofNat (c.toNat - 32) else c

/-- Python `s.upper()`. -/
def pyUpper (s : Str) : Str := s.map pyUpperChar

/-- Python `str.strip` whitespace set. -/
def isPySpace (c : Char) : Bool :=
  c = ' ' ∨ c = '\t' ∨ c = '\n' ∨ c = '\r' ∨ c.toNat = 11 ∨ c.toNat = 12

/-- Python `s.strip()`. -/
def pyStrip (s : Str) : Str :=
  ((s.dropWhile isPySpace).reverse.dropWhile isPySpace).reverse

/-- Python `s.startswith(p)`. -/
def pyStartsWith (s p : Str) : Bool := p.isPrefixOf s

/-- Python `s.endswith(p)`. -/
def pyEndsWith (s p : Str) : Bool := p.isSuffixOf s

/-- Python `sub in s` substring test. -/
def pyContains (s sub : Str) : Bool := decide (sub <:+: s)

/-- The fixed suffix list `suffixes_to_remove` of `normalize`. -/
def suffixesToRemove : List Str :=
  ["M", "PRO", ".PRO", "_PRO", ".M", "_M", ".", "-", "_"].map String.toList

/-- The fixed prefix list `prefixes_to_remove` of `normalize`. -/
def prefixesToRemove : List Str :=
  ["MT5_", "FX_"].map String.toList

/-- The suffix-stripping loop of `normalize`: strip at most one matching
suffix (`normalized[:-len(suffix)]`), first match wins (`break`). -/
def stripOneSfx : List Str → Str → Str
  | [], s => s
  | suf :: rest, s =>
      if pyEndsWith s suf then s.take (s.length - suf.length) else stripOneSfx rest s

/-- The prefix-stripping loop of `normalize`: strip at most one matching
prefix (`normalized[len(prefix):]`), first match wins (`break`). -/
def stripOnePfx : List Str → Str → Str
  | [], s => s
  | p :: rest, s =>
      if pyStartsWith s p then s.drop p.length else stripOnePfx rest s

/-- Character class `[A-Z0-9]` of the final `re.sub(r'[^A-Z0-9]', '', ...)`. -/
def isUpperAlnum (c : Char) : Bool :=
  (65 ≤ c.toNat ∧ c.toNat ≤ 90) ∨ (48 ≤ c.toNat ∧ c.toNat ≤ 57)

/-- Embedding of `MT5Handler.normalize`: uppercase, strip one suffix, strip one prefix,
then delete every character outside `A-Z0-9`. -/
def normalize (s : Str) : Str :=
  if s = [] then s
  else (stripOnePfx prefixesToRemove (stripOneSfx suffixesToRemove (pyUpper s))).filter isUpperAlnum

/-- The handler's `symbol_cache`: a Python dict from external symbol to
resolved symbol, kept as an insertion-ordered association list. -/
abbrev Cache := List (Str × Str)

/-- Dict lookup `cache[k]`. -/
def cacheLookup : Cache → Str → Option Str
  | [], _ => none
  | (a, b) :: t, k => if a == k then some b else cacheLookup t k

/-- Dict update `cache[k] = v` (replace in place if the key exists,
otherwise append, like a Python dict). -/
def cacheInsert : Cache → Str → Str → Cache
  | [], k, v => [(k, v)]
  | (a, b) :: t, k, v => if a == k then (a, v) :: t else (a, b) :: cacheInsert t k v

/-- A broker symbol's metadata, as far as the handler reads it
(`mt5.symbol_info`): description text and Market Watch visibility. -/
structure SymbolInfo where
  description : Str
  visible : Bool
  deriving DecidableEq

/-- A current price tick (`mt5.symbol_info_tick`). -/
structure Tick where
  bid : ℚ
  ask : ℚ
  deriving DecidableEq

/-- A broker-reported open position (`mt5.positions_get`). -/
structure Position where
  ticket : ℤ
  symbol : Str
  type : ℤ
  volume : ℚ
  deriving DecidableEq

/-- The order request dict built by `send_order` / `close_positions`.
`sl`/`tp` are `none` when the dict carries no such key (close requests);
`position` is `some` only for close requests. -/
structure OrderRequest where
  action : ℤ
  symbol : Str
  volume : ℚ
  type : ℤ
  price : ℚ
  sl : Option ℚ
  tp : Option ℚ
  deviation : ℤ
  magic : ℤ
  comment : Str
  type_time : ℤ
  type_filling : ℤ
  position : Option ℤ
  deriving DecidableEq

/-- The result of `mt5.order_send`. -/
structure OrderResult where
  retcode : ℤ
  comment : Str
  order : ℤ
  deriving DecidableEq

/-- Numeric constants of the MetaTrader 5 API used by the handler. -/
def ORDER_TYPE_BUY : ℤ := 0
def ORDER_TYPE_SELL : ℤ := 1
def ORDER_TYPE_BUY_LIMIT : ℤ := 2
def ORDER_TYPE_SELL_LIMIT : ℤ := 3
def ORDER_TYPE_BUY_STOP : ℤ := 4
def ORDER_TYPE_SELL_STOP : ℤ := 5
def TRADE_ACTION_DEAL : ℤ := 1
def TRADE_ACTION_PENDING : ℤ := 5
def TRADE_RETCODE_DONE : ℤ := 10009
def ORDER_TIME_GTC : ℤ := 0
def ORDER_FILLING_FOK : ℤ := 2

/-- The broker terminal, the handler's external collaborator: every `mt5.*`
primitive the handler calls, plus the sequence-similarity kernel `sim`
underlying `difflib`'s ratio (a rational in `[0,1]`; `sim x w` stands for
`SequenceMatcher(None, x, w).ratio()`). `symbols_get` returning `[]`
also covers the API failing. `positions_get` returning `none` models the
API returning `None`. -/
structure Env where
  symbols_get : List Str
  symbol_info : Str → Option SymbolInfo
  symbol_select : Str → Bool
  symbol_info_tick : Str → Option Tick
  order_send : OrderRequest → OrderResult
  positions_get : Option Str → Option (List Position)
  sim : Str → Str → ℚ

/-- One observable broker call performed by the handler. -/
inductive Event where
  | symbolsGet
  | symbolInfo (s : Str)
  | symbolSelect (s : Str)
  | symbolInfoTick (s : Str)
  | orderSend (req : OrderRequest)
  | positionsGet (f : Option Str)
  deriving DecidableEq

/-- The handler's mutable instance state. -/
structure HState where
  connected : Bool
  symbol_cache : Cache
  broker_symbols : List Str
  deriving DecidableEq

/-- Which cascade strategy produced a resolution; mirrors the distinct
`RESULT:` log lines of `map_symbol`. -/
inductive Strategy where
  | empty | cached | noBroker | exact | caseInsensitive | normalized
  | prefixMatch | containsMatch | fuzzy | descriptionMatch | transform | fallback
  deriving DecidableEq

/-- Result of `map_symbol`: resolved name, the strategy that fired, the
updated handler state, and the trace of broker calls performed. -/
structure MapResult where
  result : Str
  strategy : Strategy
  state : HState
  trace : List Event
  deriving DecidableEq

/-- Python string `<` (lexicographic by code point). -/
def strLt : Str → Str → Bool
  | [], [] => false
  | [], _ :: _ => true
  | _ :: _, [] => false
  | a :: as, b :: bs => if a.toNat < b.toNat then true else if a = b then strLt as bs else false

/-- Python tuple `≤` on `(score, name)` pairs. -/
def pairLe (a b : ℚ × Str) : Bool :=
  decide (a.1 < b.1) || (a.1 == b.1 && (strLt a.2 b.2 || a.2 == b.2))

/-- Stable descending insertion (for `heapq.nlargest` semantics). -/
def insertDesc (a : ℚ × Str) : List (ℚ × Str) → List (ℚ × Str)
  | [] => [a]
  | b :: t => if pairLe b a then a :: b :: t else b :: insertDesc a t

/-- Stable descending sort; `heapq.nlargest(n, xs)` is
`sorted(xs, reverse=True)[:n]` which is `(sortDesc xs).take n`. -/
def sortDesc : List (ℚ × Str) → List (ℚ × Str)
  | [] => []
  | a :: t => insertDesc a (sortDesc t)

/-- Embedding of `difflib.get_close_matches(word, possibilities, n, cutoff)`: keep the
possibilities whose similarity to `word` reaches `cutoff`, them take the
`n` best (ranked by similarity, Python tuple order) and return their
names. The similarity kernel is the environment's `sim`. -/
def get_close_matches (sim : Str → Str → ℚ) (word : Str)
    (possibilities : List Str) (n : ℕ) (cutoff : ℚ) : List Str :=
  let result := possibilities.filterMap
    (fun x => if cutoff ≤ sim x word then some (sim x word, x) else none)
  ((sortDesc result).take n).map Prod.snd

/-- The nested loops of `fuzzy_map`: for each close match in order, return
the first broker symbol whose uppercasing equals it. -/
def findOrig (broker_symbols : List Str) : List Str → Option Str
  | [] => none
  | m :: ms =>
      match broker_symbols.find? (fun s => pyUpper s == m) with
      | some s => some s
      | none => findOrig broker_symbols ms

/-- Embedding of `MT5Handler.fuzzy_map`: close matches of the uppercased symbol among
the uppercased broker symbols with `n=3, cutoff=0.6`, mapped back to the
original broker spelling. -/
def fuzzy_map (sim : Str → Str → ℚ) (symbol : Str) (broker_symbols : List Str) : Option Str :=
  if get_close_matches sim (pyUpper symbol) (broker_symbols.map pyUpper) 3 (mkRat 6 10) = [] then
    none
  else
    findOrig broker_symbols
      (get_close_matches sim (pyUpper symbol) (broker_symbols.map pyUpper) 3 (mkRat 6 10))

/-- The loop body of `MT5Handler.description_match`: fetch each broker
symbol's metadata in turn (one `symbol_info` call each) and accept the
first whose non-empty description contains the symbol or vice versa. -/
def descriptionMatchGo (env : Env) (symbol : Str) : List Str → Option Str × List Event
  | [] => (none, [])
  | s :: rest =>
      match env.symbol_info s with
      | some info =>
          if info.description ≠ [] ∧
              (pyContains (pyUpper info.description) (pyUpper symbol) ∨
               pyContains (pyUpper symbol) (pyUpper info.description)) then
            (some s, [Event.symbolInfo s])
          else
            let r := descriptionMatchGo env symbol rest
            (r.1, Event.symbolInfo s :: r.2)
      | none =>
          let r := descriptionMatchGo env symbol rest
          (r.1, Event.symbolInfo s :: r.2)

/-- Embedding of `MT5Handler.description_match`. -/
def description_match (env : Env) (broker_symbols : List Str) (symbol : Str) :
    Option Str × List Event :=
  descriptionMatchGo env symbol broker_symbols

/-- The fixed alias table of `MT5Handler.transform_symbol`. -/
def transformations : List (Str × List Str) :=
  ([("EURUSD", ["EUR/USD", "EURUSD", "EURUSDm"]),
    ("GBPUSD", ["GBP/USD", "GBPUSD", "GBPUSDm"]),
    ("USDJPY", ["USD/JPY", "USDJPY", "USDJPYm"]),
    ("AUDUSD", ["AUD/USD", "AUDUSD", "AUDUSDm"]),
    ("USDCAD", ["USD/CAD", "USDCAD", "USDCADm"]),
    ("USDCHF", ["USD/CHF", "USDCHF", "USDCHFm"]),
    ("NZDUSD", ["NZD/USD", "NZDUSD", "NZDUSDm"]),
    ("XAUUSD", ["GOLD", "XAU/USD", "XAUUSDm"]),
    ("XAGUSD", ["SILVER", "XAG/USD", "XAGUSDm"]),
    ("BTCUSD", ["Bitcoin", "BTC/USD", "BTCUSDm"]),
    ("ETHUSD", ["Ethereum", "ETH/USD", "ETHUSDm"])] :
      List (String × List String)).map
    (fun p => (p.1.toList, p.2.map String.toList))

/-- Python `s.replace(c, '')`. -/
def removeAll (s : Str) (c : Char) : Str := s.filter (fun a => a ≠ c)

/-- Embedding of `MT5Handler.transform_symbol`: try the alias table's variants, then
the fixed mechanical variations, accepting the first variant present in
the broker universe; `none` when nothing matches. -/
def transform_symbol (broker_symbols : List Str) (symbol : Str) : Option Str :=
  let fromTable :=
    match transformations.find? (fun p => p.1 == pyUpper symbol) with
    | some p => p.2.find? (fun v => broker_symbols.contains v)
    | none => none
  match fromTable with
  | some v => some v
  | none =>
      let variations :=
        [symbol ++ ('m' :: []), symbol ++ ".pro".toList, symbol ++ "_pro".toList,
         symbol ++ ".m".toList, symbol ++ "_m".toList,
         removeAll symbol '/', removeAll symbol '-', removeAll symbol '_']
      variations.find? (fun v => broker_symbols.contains v)

/-- Strategies 1-9 of `map_symbol` after the cache miss, over the (possibly
refreshed) broker universe `bs`: returns the resolved name, the strategy
that fired, and the broker calls made (only description matching calls the
broker here). -/
def cascade (env : Env) (bs : List Str) (symbol : Str) : Str × Strategy × List Event :=
  if bs = [] then (symbol, Strategy.noBroker, [])
  else if bs.contains symbol then (symbol, Strategy.exact, [])
  else match bs.find? (fun s => pyUpper s == pyUpper symbol) with
  | some s => (s, Strategy.caseInsensitive, [])
  | none => match bs.find? (fun s => normalize s == normalize symbol) with
  | some s => (s, Strategy.normalized, [])
  | none => match bs.find? (fun s => pyStartsWith (pyUpper s) (pyUpper symbol)) with
  | some s => (s, Strategy.prefixMatch, [])
  | none => match bs.find? (fun s => pyContains (pyUpper s) (pyUpper symbol)) with
  | some s => (s, Strategy.containsMatch, [])
  | none => match fuzzy_map env.sim symbol bs with
  | some s => (s, Strategy.fuzzy, [])
  | none => match description_match env bs symbol with
  | (some s, tr) => (s, Strategy.descriptionMatch, tr)
  | (none, tr) => match transform_symbol bs symbol with
    | some t =>
        if bs.contains t then (t, Strategy.transform, tr)
        else (symbol, Strategy.fallback, tr)
    | none => (symbol, Strategy.fallback, tr)

/-- Embedding of `MT5Handler.map_symbol` (the spec's `resolve`): empty input returns
unchanged with no side effect; otherwise strip, consult the cache, refresh
the universe if it is empty, run the cascade, and cache the outcome under
the stripped name (every post-miss branch of the source stores its
returned name in `symbol_cache`). -/
def map_symbol (env : Env) (st : HState) (symbol : Str) : MapResult :=
  if symbol = [] then ⟨symbol, Strategy.empty, st, []⟩
  else
    let stripped := pyStrip symbol
    match cacheLookup st.symbol_cache stripped with
    | some cached => ⟨cached, Strategy.cached, st, []⟩
    | none =>
        let refreshed :=
          if st.broker_symbols = [] then (env.symbols_get, [Event.symbolsGet])
          else (st.broker_symbols, ([] : List Event))
        let c := cascade env refreshed.1 stripped
        ⟨c.1, c.2.1,
         { st with broker_symbols := refreshed.1,
                   symbol_cache := cacheInsert st.symbol_cache stripped c.1 },
         refreshed.2 ++ c.2.2⟩

/-- Embedding of `MT5Handler.verify_symbol`: metadata must exist; an invisible symbol is
selected into Market Watch, and a failed selection fails verification. -/
def verify_symbol (env : Env) (symbol : Str) : Bool × List Event :=
  match env.symbol_info symbol with
  | none => (false, [Event.symbolInfo symbol])
  | some info =>
      if !info.visible then
        if !env.symbol_select symbol then
          (false, [Event.symbolInfo symbol, Event.symbolSelect symbol])
        else (true, [Event.symbolInfo symbol, Event.symbolSelect symbol])
      else (true, [Event.symbolInfo symbol])

/-- A normalized incoming webhook signal (`signal.get(...)` fields; `none`
models an absent dict key). -/
structure Signal where
  action : Option Str
  symbol : Option Str
  volume : Option ℚ
  price : Option ℚ
  stop_loss : Option ℚ
  take_profit : Option ℚ
  deriving DecidableEq

/-- The `action` → MT5 order-type chain of `send_order`; `none` is the
`UNSUPPORTED ACTION` branch (also taken when the key is missing). -/
def actionToOrderType : Option Str → Option ℤ
  | none => none
  | some a =>
      if a = "BUY".toList ∨ a = "Long".toList then some ORDER_TYPE_BUY
      else if a = "SELL".toList ∨ a = "Short".toList then some ORDER_TYPE_SELL
      else if a = "BUY_LIMIT".toList then some ORDER_TYPE_BUY_LIMIT
      else if a = "SELL_LIMIT".toList then some ORDER_TYPE_SELL_LIMIT
      else if a = "BUY_STOP".toList then some ORDER_TYPE_BUY_STOP
      else if a = "SELL_STOP".toList then some ORDER_TYPE_SELL_STOP
      else none

/-- The order request dict literal built by `send_order`. -/
def buildRequest (ms : Str) (volume : ℚ) (oty : ℤ) (price sl tp : ℚ) : OrderRequest :=
  { action := if oty = ORDER_TYPE_BUY ∨ oty = ORDER_TYPE_SELL
              then TRADE_ACTION_DEAL else TRADE_ACTION_PENDING,
    symbol := ms, volume := volume, type := oty, price := price,
    sl := some sl, tp := some tp, deviation := 20, magic := 123456,
    comment := "TradingView Auto-Signal".toList,
    type_time := ORDER_TIME_GTC, type_filling := ORDER_FILLING_FOK,
    position := none }

/-- Result of `send_order` / `close_positions`: boolean outcome, handler
state after the call, trace of broker calls. -/
structure SendResult where
  ok : Bool
  state : HState
  trace : List Event
  deriving DecidableEq

/-- The tail of `send_order`: build the request, submit it, and classify
strictly by `retcode == TRADE_RETCODE_DONE`. -/
def sendOrderFinish (env : Env) (st : HState) (tr : List Event) (ms : Str)
    (volume : ℚ) (oty : ℤ) (price sl tp : ℚ) : SendResult :=
  if (env.order_send (buildRequest ms volume oty price sl tp)).retcode ≠ TRADE_RETCODE_DONE then
    ⟨false, st, tr ++ [Event.orderSend (buildRequest ms volume oty price sl tp)]⟩
  else ⟨true, st, tr ++ [Event.orderSend (buildRequest ms volume oty price sl tp)]⟩

/-- Embedding of `MT5Handler.send_order`: reject when disconnected; read the signal
fields with their defaults (`volume` 0.1, `price`/`sl`/`tp` 0.0); resolve
the symbol (a missing symbol key resolves to `None` and then fails
verification); verify tradability; map the action; when no positive price
was supplied fetch the tick (market buys price at `ask`, everything else
at `bid`, an unavailable tick is a hard failure); submit. The source's
local variables (`volume` etc., pure reads of the signal dict) are
inlined at their use sites. -/
def send_order (env : Env) (st : HState) (sig : Signal) : SendResult :=
  if !st.connected then ⟨false, st, []⟩
  else
    match sig.symbol with
    | none => ⟨false, st, []⟩
    | some s0 =>
        if !(verify_symbol env (map_symbol env st s0).result).1 then
          ⟨false, (map_symbol env st s0).state,
           (map_symbol env st s0).trace ++ (verify_symbol env (map_symbol env st s0).result).2⟩
        else match actionToOrderType sig.action with
        | none =>
            ⟨false, (map_symbol env st s0).state,
             (map_symbol env st s0).trace ++ (verify_symbol env (map_symbol env st s0).result).2⟩
        | some oty =>
            if sig.price.getD 0 ≤ 0 then
              match env.symbol_info_tick (map_symbol env st s0).result with
              | none =>
                  ⟨false, (map_symbol env st s0).state,
                   (map_symbol env st s0).trace ++
                     (verify_symbol env (map_symbol env st s0).result).2 ++
                     [Event.symbolInfoTick (map_symbol env st s0).result]⟩
              | some tick =>
                  sendOrderFinish env (map_symbol env st s0).state
                    ((map_symbol env st s0).trace ++
                      (verify_symbol env (map_symbol env st s0).result).2 ++
                      [Event.symbolInfoTick (map_symbol env st s0).result])
                    (map_symbol env st s0).result (sig.volume.getD (mkRat 1 10)) oty
                    (if oty = ORDER_TYPE_BUY then tick.ask else tick.bid)
                    (sig.stop_loss.getD 0) (sig.take_profit.getD 0)
            else
              sendOrderFinish env (map_symbol env st s0).state
                ((map_symbol env st s0).trace ++
                  (verify_symbol env (map_symbol env st s0).result).2)
                (map_symbol env st s0).result (sig.volume.getD (mkRat 1 10)) oty
                (sig.price.getD 0) (sig.stop_loss.getD 0) (sig.take_profit.getD 0)

/-- The per-position loop of `close_positions`: reverse side, price at the
opposing quote, submit with the position's ticket; a rejected close is
only logged and the loop continues, but an unavailable tick raises
(`.bid` on `None`) and aborts the whole call with failure. -/
def closeLoop (env : Env) : List Position → Bool × List Event
  | [] => (true, [])
  | pos :: rest =>
      let oty := if pos.type = ORDER_TYPE_BUY then ORDER_TYPE_SELL else ORDER_TYPE_BUY
      match env.symbol_info_tick pos.symbol with
      | none => (false, [Event.symbolInfoTick pos.symbol])
      | some tick =>
          let price := if oty = ORDER_TYPE_SELL then tick.bid else tick.ask
          let req : OrderRequest :=
            { action := TRADE_ACTION_DEAL, symbol := pos.symbol, volume := pos.volume,
              type := oty, price := price, sl := none, tp := none, deviation := 20,
              magic := 123456, comment := "Auto-close position".toList,
              type_time := ORDER_TIME_GTC, type_filling := ORDER_FILLING_FOK,
              position := some pos.ticket }
          let _result := env.order_send req
          let r := closeLoop env rest
          (r.1, Event.symbolInfoTick pos.symbol :: Event.orderSend req :: r.2)

/-- The symbol filter `close_positions` passes to `positions_get`: a given
truthy symbol is resolved first, an empty string stays as is. -/
def closeFilter (env : Env) (st : HState) : Option Str → Option Str × HState × List Event
  | some s =>
      if s ≠ [] then
        (some (map_symbol env st s).result, (map_symbol env st s).state,
         (map_symbol env st s).trace)
      else (some s, st, [])
  | none => (none, st, [])

/-- Embedding of `MT5Handler.close_positions`: resolve the optional filter, fetch open
positions (`None` or an empty list means nothing to close and is reported
as success), then close each in turn via `closeLoop`. -/
def close_positions (env : Env) (st : HState) (symbol : Option Str) : SendResult :=
  match env.positions_get (closeFilter env st symbol).1 with
  | none =>
      ⟨true, (closeFilter env st symbol).2.1,
       (closeFilter env st symbol).2.2 ++ [Event.positionsGet (closeFilter env st symbol).1]⟩
  | some [] =>
      ⟨true, (closeFilter env st symbol).2.1,
       (closeFilter env st symbol).2.2 ++ [Event.positionsGet (closeFilter env st symbol).1]⟩
  | some positions =>
      ⟨(closeLoop env positions).1, (closeFilter env st symbol).2.1,
       (closeFilter env st symbol).2.2 ++
         [Event.positionsGet (closeFilter env st symbol).1] ++ (closeLoop env positions).2⟩

/-! ## Helper lemmas -/

theorem cacheLookup_cacheInsert (c : Cache) (k v : Str) :
    cacheLookup (cacheInsert c k v) k = some v := by
  induction c with
  | nil => simp [cacheInsert, cacheLookup]
  | cons p t ih =>
      obtain ⟨a, b⟩ := p
      cases hak : a == k <;> simp [cacheInsert, cacheLookup, hak, ih]

theorem cascade_fallback (env : Env) (bs : List Str) (k : Str) :
    (cascade env bs k).2.1 = Strategy.fallback → (cascade env bs k).1 = k := by
  unfold cascade
  repeat' split
  all_goals intro h
  all_goals first | rfl | exact Strategy.noConfusion h

/-- Every character surviving `normalize`'s final filter is in `A-Z0-9`. -/
theorem isUpperAlnum_of_mem_normalize {s : Str} {c : Char} (h : c ∈ normalize s) :
    isUpperAlnum c = true := by
  unfold normalize at h
  split at h
  · next he => rw [he] at h; cases h
  · exact (List.mem_filter.1 h).2

/-- Python `str.upper` fixes strings made only of `A-Z0-9`. -/
theorem pyUpper_eq_self {r : Str} (h : ∀ c ∈ r, isUpperAlnum c = true) : pyUpper r = r := by
  induction r with
  | nil => rfl
  | cons a t ih =>
      have ha := h a (by simp)
      have hfix : pyUpperChar a = a := by
        unfold pyUpperChar
        rw [if_neg]
        simp only [isUpperAlnum, decide_eq_true_eq] at ha
        omega
      have ht : pyUpper t = t := ih (fun c hc => h c (by simp [hc]))
      simp only [pyUpper, List.map_cons, hfix]
      simpa [pyUpper] using ht

/-- A string of `A-Z0-9` characters cannot end with a suffix containing a
character outside `A-Z0-9`. -/
theorem pyEndsWith_eq_false_of_special {r suf : Str}
    (hr : ∀ a ∈ r, isUpperAlnum a = true) (c : Char) (hc : c ∈ suf) (hcs : isUpperAlnum c = false) :
    pyEndsWith r suf = false := by
  by_contra h
  rw [Bool.not_eq_false] at h
  unfold pyEndsWith at h
  rw [List.isSuffixOf_iff_suffix] at h
  rw [hr c (h.subset hc)] at hcs
  cases hcs

/-- A string of `A-Z0-9` characters cannot start with a prefix containing a
character outside `A-Z0-9`. -/
theorem pyStartsWith_eq_false_of_special {r p : Str}
    (hr : ∀ a ∈ r, isUpperAlnum a = true) (c : Char) (hc : c ∈ p) (hcs : isUpperAlnum c = false) :
    pyStartsWith r p = false := by
  by_contra h
  rw [Bool.not_eq_false] at h
  unfold pyStartsWith at h
  rw [List.isPrefixOf_iff_prefix] at h
  rw [hr c (h.subset hc)] at hcs
  cases hcs

/-! ## Claim C4: idempotence of `normalize` -/

/-- C4, counterexample: the claim "normalize(normalize(s)) == normalize(s)
for every string s" is false at s = "MM": normalize("MM") = "M" but
normalize("M") = "" (the single-character suffix 'M' is stripped again on
the second pass). -/
theorem normalize_not_idempotent :
    ¬ normalize (normalize "MM".toList) = normalize "MM".toList := by decide

/-- C4, amended: `normalize` is idempotent on every string whose normalized
form ends in neither "M" nor "PRO" (the only strippable suffixes made of
`A-Z0-9` characters; every other suffix and both prefixes contain a special
character, which the final filter has already removed). -/
theorem normalize_idempotent_of (s : Str)
    (h1 : pyEndsWith (normalize s) ['M'] = false)
    (h2 : pyEndsWith (normalize s) ['P', 'R', 'O'] = false) :
    normalize (normalize s) = normalize s := by
  set r := normalize s with hr
  have hA : ∀ c ∈ r, isUpperAlnum c = true := fun c hc =>
    isUpperAlnum_of_mem_normalize (hr ▸ hc)
  by_cases hnil : r = []
  · rw [hnil]; rfl
  · show normalize r = r
    unfold normalize
    rw [if_neg hnil, pyUpper_eq_self hA]
    have hs3 : pyEndsWith r ['.', 'P', 'R', 'O'] = false :=
      pyEndsWith_eq_false_of_special hA '.' (by decide) (by decide)
    have hs4 : pyEndsWith r ['_', 'P', 'R', 'O'] = false :=
      pyEndsWith_eq_false_of_special hA '_' (by decide) (by decide)
    have hs5 : pyEndsWith r ['.', 'M'] = false :=
      pyEndsWith_eq_false_of_special hA '.' (by decide) (by decide)
    have hs6 : pyEndsWith r ['_', 'M'] = false :=
      pyEndsWith_eq_false_of_special hA '_' (by decide) (by decide)
    have hs7 : pyEndsWith r ['.'] = false :=
      pyEndsWith_eq_false_of_special hA '.' (by decide) (by decide)
    have hs8 : pyEndsWith r ['-'] = false :=
      pyEndsWith_eq_false_of_special hA '-' (by decide) (by decide)
    have hs9 : pyEndsWith r ['_'] = false :=
      pyEndsWith_eq_false_of_special hA '_' (by decide) (by decide)
    have hsfx : stripOneSfx suffixesToRemove r = r := by
      simp [suffixesToRemove, stripOneSfx, h1, h2, hs3, hs4, hs5, hs6, hs7, hs8, hs9]
    have hp1 : pyStartsWith r ['M', 'T', '5', '_'] = false :=
      pyStartsWith_eq_false_of_special hA '_' (by decide) (by decide)
    have hp2 : pyStartsWith r ['F', 'X', '_'] = false :=
      pyStartsWith_eq_false_of_special hA '_' (by decide) (by decide)
    have hpfx : stripOnePfx prefixesToRemove r = r := by
      simp [prefixesToRemove, stripOnePfx, hp1, hp2]
    rw [hsfx, hpfx]
    exact List.filter_eq_self.2 hA

/-- C4, witness: the amended idempotence at the concrete input "XAUUSD". -/
theorem normalize_idempotent_of_witness :
    pyEndsWith (normalize "XAUUSD".toList) ['M'] = false ∧
    pyEndsWith (normalize "XAUUSD".toList) ['P', 'R', 'O'] = false ∧
    normalize (normalize "XAUUSD".toList) = normalize "XAUUSD".toList :=
  ⟨by decide, by decide, normalize_idempotent_of _ (by decide) (by decide)⟩

/-! ## Claim C1: the fixture scenario and which strategies fire -/

/-- The fixture broker universe of the scenario. -/
def scenarioUniverse : List Str := ["XAUUSDm", "EURUSD", "BTCUSD.pro"].map String.toList

/-- Connected handler state over the fixture universe, empty cache. -/
def scenarioState : HState := ⟨true, [], scenarioUniverse⟩

/-- A closed broker environment used to evaluate counterexamples. -/
def defaultEnv : Env where
  symbols_get := []
  symbol_info := fun _ => none
  symbol_select := fun _ => false
  symbol_info_tick := fun _ => none
  order_send := fun _ => ⟨TRADE_RETCODE_DONE, [], 1⟩
  positions_get := fun _ => none
  sim := fun _ _ => 0

/-- C1, counterexample: in the fixture scenario neither does
`resolve("XAUUSD")` fire via the prefix strategy nor `resolve("BTCUSD")`
via the contains strategy — the normalized-match strategy, which runs
earlier in the cascade, already matches both ("XAUUSDm" and "BTCUSD.pro"
normalize to "XAUUSD" and "BTCUSD"). -/
theorem scenario_strategy_counterexample :
    ¬((map_symbol defaultEnv scenarioState "XAUUSD".toList).strategy = Strategy.prefixMatch ∧
      (map_symbol defaultEnv scenarioState "BTCUSD".toList).strategy = Strategy.containsMatch) := by
  decide

/-- C1, amended: with universe ["XAUUSDm", "EURUSD", "BTCUSD.pro"] and an
empty cache — whatever the rest of the broker environment does —
`resolve("XAUUSD")` returns "XAUUSDm" via the normalized-match strategy,
`resolve("eurusd")` returns "EURUSD" via the case-insensitive strategy, and
`resolve("BTCUSD")` returns "BTCUSD.pro" via the normalized-match
strategy. -/
theorem scenario_resolution_strategies (env : Env) :
    ((map_symbol env scenarioState "XAUUSD".toList).result = "XAUUSDm".toList ∧
     (map_symbol env scenarioState "XAUUSD".toList).strategy = Strategy.normalized) ∧
    ((map_symbol env scenarioState "eurusd".toList).result = "EURUSD".toList ∧
     (map_symbol env scenarioState "eurusd".toList).strategy = Strategy.caseInsensitive) ∧
    ((map_symbol env scenarioState "BTCUSD".toList).result = "BTCUSD.pro".toList ∧
     (map_symbol env scenarioState "BTCUSD".toList).strategy = Strategy.normalized) :=
  ⟨⟨rfl, rfl⟩, ⟨rfl, rfl⟩, ⟨rfl, rfl⟩⟩

/-! ## Cache behaviour of `map_symbol` -/

/-- A cache hit short-circuits the whole cascade: same stripped key in the
cache means the cached value is returned with no state change and no
broker call. -/
theorem map_symbol_hit (env : Env) (st : HState) (s r : Str) (hs : s ≠ [])
    (h : cacheLookup st.symbol_cache (pyStrip s) = some r) :
    map_symbol env st s = ⟨r, Strategy.cached, st, []⟩ := by
  unfold map_symbol
  rw [if_neg hs]
  simp only [h]

/-- After any non-empty resolution, the cache holds the returned value
under the stripped key. -/
theorem map_symbol_result_cached (env : Env) (st : HState) (s : Str) (hs : s ≠ []) :
    cacheLookup (map_symbol env st s).state.symbol_cache (pyStrip s) =
      some (map_symbol env st s).result := by
  unfold map_symbol
  rw [if_neg hs]
  cases hl : cacheLookup st.symbol_cache (pyStrip s) with
  | some c => simp [hl]
  | none => simp [hl, cacheLookup_cacheInsert]

/-- When the fallback strategy fires, the returned name is the stripped
input itself. -/
theorem map_symbol_fallback (env : Env) (st : HState) (s : Str) (hs : s ≠ []) :
    (map_symbol env st s).strategy = Strategy.fallback →
      (map_symbol env st s).result = pyStrip s := by
  unfold map_symbol
  rw [if_neg hs]
  cases hl : cacheLookup st.symbol_cache (pyStrip s) with
  | some c =>
      simp only [hl]
      intro h
      exact Strategy.noConfusion h
  | none =>
      simp only [hl]
      intro h
      exact cascade_fallback env _ (pyStrip s) h

/-! ## Claim C2: cache determinism -/

/-- C2: once `resolve(s)` has completed for a non-empty `s`, the cache maps
the stripped `s` to the returned name, and any later `resolve(s)` — under
any broker environment and from any handler state still holding that entry
(no intervening clear) — returns the same string via the cache-hit branch,
changes no state and performs no broker call at all. -/
theorem resolve_cache_determinism (env : Env) (st : HState) (s : Str) (hs : s ≠ []) :
    cacheLookup (map_symbol env st s).state.symbol_cache (pyStrip s) =
      some (map_symbol env st s).result ∧
    ∀ (env₂ : Env) (st₂ : HState),
      cacheLookup st₂.symbol_cache (pyStrip s) = some (map_symbol env st s).result →
      map_symbol env₂ st₂ s =
        ⟨(map_symbol env st s).result, Strategy.cached, st₂, []⟩ :=
  ⟨map_symbol_result_cached env st s hs,
   fun env₂ st₂ h₂ => map_symbol_hit env₂ st₂ s _ hs h₂⟩

/-- Handler state whose cache already holds the scenario's first
resolution, over an emptied universe (the cached lookup must not consult
the universe at all). -/
def cachedState : HState := ⟨true, [("XAUUSD".toList, "XAUUSDm".toList)], []⟩

/-- C2, witness: concrete second lookup of "XAUUSD" served from the cache,
unchanged state, empty trace, even under a different environment and an
emptied universe. -/
theorem resolve_cache_determinism_witness :
    map_symbol defaultEnv cachedState "XAUUSD".toList =
      ⟨(map_symbol defaultEnv scenarioState "XAUUSD".toList).result,
       Strategy.cached, cachedState, []⟩ :=
  (resolve_cache_determinism defaultEnv scenarioState "XAUUSD".toList
    (by decide)).2 defaultEnv cachedState (by decide)

/-! ## Claim C3: totality, fallback and the cache side effect -/

/-- C3, counterexample: `resolve("")` takes the empty-symbol early return
and writes no cache entry at all — the claim that every call writes an
entry for its input into the resolution cache is false at s = "". -/
theorem resolve_empty_writes_nothing :
    map_symbol defaultEnv scenarioState [] = ⟨[], Strategy.empty, scenarioState, []⟩ ∧
    cacheLookup (map_symbol defaultEnv scenarioState []).state.symbol_cache [] = none := by
  decide

/-- C3, amended: for every non-empty input string s, `resolve(s)` returns a
string (total by construction), falls back to the stripped s unchanged when
every matching strategy fails, and after every call — match or fallback —
the cache holds an entry for the stripped s equal to the returned value.
(The original claim fails only for the empty string, which returns early
without touching the cache, and in that the cache key is `s.strip()`, not
s itself.) -/
theorem resolve_total_fallback_caches (env : Env) (st : HState) (s : Str) (hs : s ≠ []) :
    cacheLookup (map_symbol env st s).state.symbol_cache (pyStrip s) =
      some (map_symbol env st s).result ∧
    ((map_symbol env st s).strategy = Strategy.fallback →
      (map_symbol env st s).result = pyStrip s) :=
  ⟨map_symbol_result_cached env st s hs, map_symbol_fallback env st s hs⟩

/-- Handler state over a one-symbol universe that matches nothing of
"QQQ", driving the cascade to the fallback strategy. -/
def fallbackState : HState := ⟨true, [], ["ZZZ".toList]⟩

/-- C3, witness: the amended claim at the concrete unmapped symbol "QQQ",
where the cascade genuinely reaches the fallback strategy. -/
theorem resolve_total_fallback_caches_witness :
    cacheLookup (map_symbol defaultEnv fallbackState "QQQ".toList).state.symbol_cache
        (pyStrip "QQQ".toList) =
      some (map_symbol defaultEnv fallbackState "QQQ".toList).result ∧
    ((map_symbol defaultEnv fallbackState "QQQ".toList).strategy = Strategy.fallback →
      (map_symbol defaultEnv fallbackState "QQQ".toList).result = pyStrip "QQQ".toList) :=
  resolve_total_fallback_caches defaultEnv fallbackState "QQQ".toList (by decide)

/-! ## Traces of the resolution engine never contain an order submission -/

theorem descGo_no_orderSend (env : Env) (sym : Str) (bs : List Str) (req : OrderRequest) :
    Event.orderSend req ∉ (descriptionMatchGo env sym bs).2 := by
  induction bs with
  | nil => simp [descriptionMatchGo]
  | cons s rest ih =>
      unfold descriptionMatchGo
      cases h : env.symbol_info s with
      | none => simpa [h] using ih
      | some info =>
          by_cases hc : info.description ≠ [] ∧
              (pyContains (pyUpper info.description) (pyUpper sym) ∨
               pyContains (pyUpper sym) (pyUpper info.description))
          · simp [h, hc]
          · simpa [h, hc] using ih

theorem cascade_no_orderSend (env : Env) (bs : List Str) (k : Str) (req : OrderRequest) :
    Event.orderSend req ∉ (cascade env bs k).2.2 := by
  have hdesc := descGo_no_orderSend env k bs req
  unfold cascade
  repeat' split
  all_goals simp_all [description_match]

theorem map_symbol_no_orderSend (env : Env) (st : HState) (s : Str) (req : OrderRequest) :
    Event.orderSend req ∉ (map_symbol env st s).trace := by
  unfold map_symbol
  split
  · simp
  · cases hl : cacheLookup st.symbol_cache (pyStrip s) with
    | some c => simp [hl]
    | none =>
        simp only [hl, List.mem_append]
        intro hmem
        rcases hmem with hmem | hmem
        · split at hmem <;> simp_all
        · exact cascade_no_orderSend env _ _ req hmem

theorem verify_no_orderSend (env : Env) (s : Str) (req : OrderRequest) :
    Event.orderSend req ∉ (verify_symbol env s).2 := by
  unfold verify_symbol
  repeat' split
  all_goals simp

/-! ## Claim C8: disconnected submission is a pure failure -/

/-- C8: when the handler is not connected, `send_order` fails with no side
effect at all — the state (hence the resolution cache) is unchanged and not
a single broker call (resolution, metadata, tick or submission) happens. -/
theorem send_order_disconnected (env : Env) (st : HState) (sig : Signal)
    (h : st.connected = false) :
    send_order env st sig = ⟨false, st, []⟩ := by
  unfold send_order
  rw [h]
  rfl

/-- A disconnected handler state used for the C8 witness. -/
def disconnectedState : HState := ⟨false, [], scenarioUniverse⟩

/-- An arbitrary concrete market-buy signal. -/
def buySignal : Signal :=
  ⟨some "BUY".toList, some "EURUSD".toList, none, none, none, none⟩

/-- C8, witness: the disconnected failure at concrete inputs. -/
theorem send_order_disconnected_witness :
    send_order defaultEnv disconnectedState buySignal = ⟨false, disconnectedState, []⟩ :=
  send_order_disconnected defaultEnv disconnectedState buySignal (by decide)

/-! ## Claim C7: unsupported actions never reach the broker -/

/-- C7: a signal whose action is none of BUY/Long, SELL/Short, BUY_LIMIT,
SELL_LIMIT, BUY_STOP, SELL_STOP (or is absent) makes `send_order` return
failure, and the broker order-submission primitive is never called. -/
theorem send_order_unsupported_action (env : Env) (st : HState) (sig : Signal)
    (h : ∀ a, sig.action = some a →
      ¬(a = "BUY".toList ∨ a = "Long".toList ∨ a = "SELL".toList ∨ a = "Short".toList ∨
        a = "BUY_LIMIT".toList ∨ a = "SELL_LIMIT".toList ∨
        a = "BUY_STOP".toList ∨ a = "SELL_STOP".toList)) :
    (send_order env st sig).ok = false ∧
      ∀ req, Event.orderSend req ∉ (send_order env st sig).trace := by
  have hA : actionToOrderType sig.action = none := by
    cases hact : sig.action with
    | none => rfl
    | some a =>
        have hh := h a hact
        simp only [actionToOrderType]
        repeat' split
        all_goals first | rfl | tauto
  constructor
  · unfold send_order
    rw [hA]
    repeat' split
    all_goals first | rfl | simp_all
  · intro req
    unfold send_order
    rw [hA]
    repeat' split
    all_goals intro hmem
    all_goals
      first
        | cases hmem
        | (rcases List.mem_append.1 hmem with hm | hm
           · exact map_symbol_no_orderSend _ _ _ _ hm
           · exact verify_no_orderSend _ _ _ hm)
        | simp_all

/-- A connected state over the scenario universe for witnesses. -/
def connectedState : HState := ⟨true, [], scenarioUniverse⟩

/-- A broker environment in which every symbol is tradeable, every tick is
available and every submission succeeds. -/
def happyEnv : Env where
  symbols_get := scenarioUniverse
  symbol_info := fun _ => some ⟨"desc".toList, true⟩
  symbol_select := fun _ => true
  symbol_info_tick := fun _ => some ⟨mkRat 11 10, mkRat 11002 10000⟩
  order_send := fun _ => ⟨TRADE_RETCODE_DONE, [], 7⟩
  positions_get := fun _ => some []
  sim := fun _ _ => 0

/-- The concrete unsupported signal of the spec's example. -/
def scaleInSignal : Signal :=
  ⟨some "SCALE_IN".toList, some "EURUSD".toList, none, none, none, none⟩

/-- C7, witness: the "SCALE_IN" signal fails and no submission event is in
the trace, even under a fully cooperative broker. -/
theorem send_order_unsupported_action_witness :
    (send_order happyEnv connectedState scaleInSignal).ok = false ∧
      Event.orderSend (buildRequest "EURUSD".toList (mkRat 1 10) ORDER_TYPE_BUY
          (mkRat 11002 10000) 0 0) ∉
        (send_order happyEnv connectedState scaleInSignal).trace :=
  ⟨(send_order_unsupported_action happyEnv connectedState scaleInSignal (by decide)).1,
   (send_order_unsupported_action happyEnv connectedState scaleInSignal (by decide)).2 _⟩

/-- Any order-submission event in a `sendOrderFinish` trace is either
inherited from the earlier trace or is exactly the request built there. -/
theorem sendOrderFinish_orderSend (env : Env) (st : HState) (tr : List Event) (ms : Str)
    (volume : ℚ) (oty : ℤ) (price sl tp : ℚ) (req : OrderRequest)
    (h : Event.orderSend req ∈ (sendOrderFinish env st tr ms volume oty price sl tp).trace) :
    Event.orderSend req ∈ tr ∨ req = buildRequest ms volume oty price sl tp := by
  unfold sendOrderFinish at h
  split at h
  all_goals
    rcases List.mem_append.1 h with hm | hm
    · exact Or.inl hm
    · right
      have he := List.mem_singleton.1 hm
      injection he

/-! ## Claim C10: missing volume defaults to 0.1 -/

/-- C10: whatever signal lacks the volume key, any order `send_order`
actually submits carries the default volume 0.1. -/
theorem send_order_default_volume (env : Env) (st : HState) (sig : Signal)
    (req : OrderRequest) (hv : sig.volume = none)
    (hmem : Event.orderSend req ∈ (send_order env st sig).trace) :
    req.volume = mkRat 1 10 := by
  unfold send_order at hmem
  repeat' split at hmem
  all_goals
    first
      | cases hmem
      | (rcases List.mem_append.1 hmem with hm | hm
         · exact absurd hm (map_symbol_no_orderSend _ _ _ _)
         · exact absurd hm (verify_no_orderSend _ _ _))
      | (rcases List.mem_append.1 hmem with hm | hm
         · rcases List.mem_append.1 hm with hm2 | hm2
           · exact absurd hm2 (map_symbol_no_orderSend _ _ _ _)
           · exact absurd hm2 (verify_no_orderSend _ _ _)
         · simp at hm)
      | (rcases sendOrderFinish_orderSend _ _ _ _ _ _ _ _ _ _ hmem with hm | hm
         · rcases List.mem_append.1 hm with hm2 | hm2
           · rcases List.mem_append.1 hm2 with hm3 | hm3
             · exact absurd hm3 (map_symbol_no_orderSend _ _ _ _)
             · exact absurd hm3 (verify_no_orderSend _ _ _)
           · simp at hm2
         · rw [hm]; simp [buildRequest, hv])
      | (rcases sendOrderFinish_orderSend _ _ _ _ _ _ _ _ _ _ hmem with hm | hm
         · rcases List.mem_append.1 hm with hm2 | hm2
           · exact absurd hm2 (map_symbol_no_orderSend _ _ _ _)
           · exact absurd hm2 (verify_no_orderSend _ _ _)
         · rw [hm]; simp [buildRequest, hv])

/-- C10, witness: under the cooperative broker, the volume-less BUY signal
does get submitted, and the submitted request's volume is 0.1. -/
theorem send_order_default_volume_witness :
    (buildRequest "EURUSD".toList (mkRat 1 10) ORDER_TYPE_BUY (mkRat 11002 10000) 0 0).volume =
      mkRat 1 10 :=
  send_order_default_volume happyEnv connectedState buySignal _ (by decide) (by decide)

/-! ## Claim C5: pricing from the current tick -/

/-- C5: for a connected submission whose signal carries no price, once the
symbol verifies and the action maps to an order type, `send_order` fetches
the tick for the resolved symbol: if the tick is unavailable it fails
without submitting anything, and otherwise it submits a request priced at
the tick's ask for a market BUY and at the tick's bid for every other
order type. -/
theorem send_order_price_from_tick (env : Env) (st : HState) (sig : Signal)
    (s0 : Str) (oty : ℤ)
    (hc : st.connected = true)
    (hp : sig.price = none)
    (hs : sig.symbol = some s0)
    (hv : (verify_symbol env (map_symbol env st s0).result).1 = true)
    (hoty : actionToOrderType sig.action = some oty) :
    (env.symbol_info_tick (map_symbol env st s0).result = none →
      (send_order env st sig).ok = false ∧
      ∀ req, Event.orderSend req ∉ (send_order env st sig).trace) ∧
    (∀ tick, env.symbol_info_tick (map_symbol env st s0).result = some tick →
      Event.orderSend (buildRequest (map_symbol env st s0).result
          (sig.volume.getD (mkRat 1 10)) oty
          (if oty = ORDER_TYPE_BUY then tick.ask else tick.bid)
          (sig.stop_loss.getD 0) (sig.take_profit.getD 0)) ∈
        (send_order env st sig).trace) := by
  unfold send_order
  rw [hc, hs]
  simp only [Bool.not_true, Bool.false_eq_true, if_false, hv, hoty, hp,
    Option.getD_none, le_refl, if_true]
  constructor
  · intro htick
    rw [htick]
    refine ⟨rfl, fun req hmem => ?_⟩
    rcases List.mem_append.1 hmem with hm | hm
    · rcases List.mem_append.1 hm with hm2 | hm2
      · exact absurd hm2 (map_symbol_no_orderSend _ _ _ _)
      · exact absurd hm2 (verify_no_orderSend _ _ _)
    · simp at hm
  · intro tick htick
    simp only [htick]
    unfold sendOrderFinish
    repeat' split
    all_goals exact List.mem_append_right _ (by simp)

/-- C5, witness: the spec's concrete example — a market BUY with no price
and tick {bid: 1.1, ask: 1.1002} submits a request priced 1.1002 (the
ask). -/
theorem send_order_price_from_tick_witness :
    Event.orderSend (buildRequest "EURUSD".toList (mkRat 1 10) ORDER_TYPE_BUY
        (mkRat 11002 10000) 0 0) ∈
      (send_order happyEnv connectedState buySignal).trace :=
  (send_order_price_from_tick happyEnv connectedState buySignal "EURUSD".toList
      ORDER_TYPE_BUY (by decide) (by decide) (by decide) (by decide) (by decide)).2
    ⟨mkRat 11 10, mkRat 11002 10000⟩ (by decide)

/-! ## Claim C6: close_positions outcome classification -/

/-- Recognizer for order-submission events, for counting submissions. -/
def isOrderSend : Event → Bool
  | Event.orderSend _ => true
  | _ => false

theorem countP_isOrderSend_eq_zero {l : List Event}
    (h : ∀ req, Event.orderSend req ∉ l) : l.countP isOrderSend = 0 := by
  rw [List.countP_eq_zero]
  intro e he
  cases e
  case orderSend r => exact absurd he (h r)
  all_goals simp [isOrderSend]

/-- The close filter's trace comes from `map_symbol` only, so it contains
no order submission. -/
theorem closeFilter_no_orderSend (env : Env) (st : HState) (sym : Option Str)
    (req : OrderRequest) : Event.orderSend req ∉ (closeFilter env st sym).2.2 := by
  unfold closeFilter
  repeat' split
  all_goals first | exact map_symbol_no_orderSend _ _ _ _ | simp

/-- When every position's tick is available, the close loop reports
success and performs exactly one order submission per position, whatever
each submission's result code is. -/
theorem closeLoop_all_ticks (env : Env) (ps : List Position)
    (h : ∀ p ∈ ps, (env.symbol_info_tick p.symbol).isSome = true) :
    (closeLoop env ps).1 = true ∧
      (closeLoop env ps).2.countP isOrderSend = ps.length := by
  induction ps with
  | nil => simp [closeLoop]
  | cons p rest ih =>
      have hp := h p (by simp)
      obtain ⟨tick, htick⟩ := Option.isSome_iff_exists.1 hp
      have ihr := ih (fun q hq => h q (by simp [hq]))
      unfold closeLoop
      rw [htick]
      simp [List.countP_cons, isOrderSend, ihr.1, ihr.2]

/-- Three open long positions used by the C6 witness. -/
def positionA : Position := ⟨1, "EURUSD".toList, 0, 1⟩
def positionB : Position := ⟨2, "EURUSD".toList, 0, 2⟩
def positionC : Position := ⟨3, "XAUUSDm".toList, 1, 1⟩

/-- A single open position whose symbol has no available tick. -/
def stuckPosition : Position := ⟨9, "EURUSD".toList, 0, 1⟩

/-- Broker environment of the C6 counterexample: the position fetch
succeeds but no tick is available. -/
def noTickEnv : Env :=
  { defaultEnv with
    positions_get := fun _ => some [stuckPosition],
    symbol_info_tick := fun _ => none }

/-- Broker environment of the C6 witness: three open positions, all ticks
available, and the broker rejects exactly the close of ticket 2. -/
def rejectOneEnv : Env :=
  { happyEnv with
    positions_get := fun _ => some [positionA, positionB, positionC],
    order_send := fun req =>
      if req.position = some 2 then ⟨10013, [], 0⟩ else ⟨TRADE_RETCODE_DONE, [], 0⟩ }

/-- C6, counterexample: fetching the open positions can succeed (one open
position is returned) and `close_positions` still reports failure — the
position's tick is unavailable, the resulting exception aborts the loop,
and the overall outcome is not independent of the individual close
attempt's outcome. -/
theorem close_positions_failure_counterexample :
    noTickEnv.positions_get none = some [stuckPosition] ∧
    (close_positions noTickEnv scenarioState none).ok = false := by
  decide

/-- C6, amended: `close_positions` returns success whenever fetching the
open positions yields nothing to close (`None` or an empty list means zero
submissions and success), and whenever positions are returned and each
position's tick is available it still returns success independently of the
individual submission outcomes, attempting exactly one close per position
(a rejected close is only logged; the loop continues). What the original
claim misses is that an unavailable tick for some position raises and makes
the whole call fail even though fetching the positions succeeded. -/
theorem close_positions_success (env : Env) (st : HState) (sym : Option Str) :
    ((env.positions_get (closeFilter env st sym).1 = none ∨
      env.positions_get (closeFilter env st sym).1 = some []) →
      (close_positions env st sym).ok = true ∧
      ∀ req, Event.orderSend req ∉ (close_positions env st sym).trace) ∧
    (∀ ps, env.positions_get (closeFilter env st sym).1 = some ps →
      (∀ p ∈ ps, (env.symbol_info_tick p.symbol).isSome = true) →
      (close_positions env st sym).ok = true ∧
      (close_positions env st sym).trace.countP isOrderSend = ps.length) := by
  constructor
  · intro h
    have hgoal : ∀ req, Event.orderSend req ∉
        (closeFilter env st sym).2.2 ++ [Event.positionsGet (closeFilter env st sym).1] := by
      intro req hmem
      rcases List.mem_append.1 hmem with hm | hm
      · exact absurd hm (closeFilter_no_orderSend env st sym req)
      · simp at hm
    rcases h with h | h
    · unfold close_positions
      rw [h]
      exact ⟨rfl, hgoal⟩
    · unfold close_positions
      rw [h]
      exact ⟨rfl, hgoal⟩
  · intro ps hps hticks
    cases ps with
    | nil =>
        unfold close_positions
        rw [hps]
        refine ⟨rfl, ?_⟩
        rw [List.countP_append]
        rw [countP_isOrderSend_eq_zero (closeFilter_no_orderSend env st sym)]
        simp [isOrderSend]
    | cons p rest =>
        have hloop := closeLoop_all_ticks env (p :: rest) hticks
        unfold close_positions
        rw [hps]
        refine ⟨hloop.1, ?_⟩
        rw [List.countP_append, List.countP_append]
        rw [countP_isOrderSend_eq_zero (closeFilter_no_orderSend env st sym)]
        rw [hloop.2]
        simp [isOrderSend]

/-- C6, witness: with three positions of which the second's close is
rejected by the broker, the call still submits three closes and still
returns success. -/
theorem close_positions_success_witness :
    (close_positions rejectOneEnv scenarioState none).ok = true ∧
    (close_positions rejectOneEnv scenarioState none).trace.countP isOrderSend =
      [positionA, positionB, positionC].length :=
  (close_positions_success rejectOneEnv scenarioState none).2
    [positionA, positionB, positionC] (by decide) (by decide)

/-! ## Claim C9: the fuzzy strategy honours the 0.6 cutoff -/

theorem mem_insertDesc {a x : ℚ × Str} {l : List (ℚ × Str)} :
    x ∈ insertDesc a l ↔ x = a ∨ x ∈ l := by
  induction l with
  | nil => simp [insertDesc]
  | cons b t ih =>
      unfold insertDesc
      split
      · simp [List.mem_cons]
      · simp only [List.mem_cons, ih]
        tauto

theorem mem_sortDesc {x : ℚ × Str} {l : List (ℚ × Str)} :
    x ∈ sortDesc l ↔ x ∈ l := by
  induction l with
  | nil => simp [sortDesc]
  | cons a t ih => simp [sortDesc, mem_insertDesc, ih]

/-- Soundness of the close-match ranking: every returned name is one of
the possibilities and its similarity to the word reaches the cutoff. -/
theorem get_close_matches_mem (sim : Str → Str → ℚ) (word : Str)
    (possibilities : List Str) (n : ℕ) (cutoff : ℚ) (m : Str)
    (h : m ∈ get_close_matches sim word possibilities n cutoff) :
    m ∈ possibilities ∧ cutoff ≤ sim m word := by
  simp only [get_close_matches] at h
  obtain ⟨pr, hpr, hsnd⟩ := List.mem_map.1 h
  have h1 : pr ∈ sortDesc (possibilities.filterMap
      (fun x => if cutoff ≤ sim x word then some (sim x word, x) else none)) :=
    List.take_subset _ _ hpr
  rw [mem_sortDesc] at h1
  obtain ⟨x, hx, hfx⟩ := List.mem_filterMap.1 h1
  by_cases hcond : cutoff ≤ sim x word
  · rw [if_pos hcond] at hfx
    injection hfx with hfx
    rw [← hfx] at hsnd
    simp only at hsnd
    subst hsnd
    exact ⟨hx, hcond⟩
  · rw [if_neg hcond] at hfx
    cases hfx

/-- C9: whenever the fuzzy strategy returns a candidate, the candidate's
case-folded similarity to the external symbol is at least the 0.6 cutoff,
and the candidate's uppercasing is the first of the at-most-3 close
matches ranked by similarity. -/
theorem fuzzy_map_cutoff (sim : Str → Str → ℚ) (symbol : Str) (bs : List Str) (c : Str)
    (h : fuzzy_map sim symbol bs = some c) :
    mkRat 6 10 ≤ sim (pyUpper c) (pyUpper symbol) ∧
    (get_close_matches sim (pyUpper symbol) (bs.map pyUpper) 3 (mkRat 6 10)).head? =
      some (pyUpper c) := by
  unfold fuzzy_map at h
  split at h
  · exact absurd h (by simp)
  · next hne =>
      obtain ⟨m0, rest, hcms⟩ := List.exists_cons_of_ne_nil hne
      rw [hcms] at h
      have hm0 : m0 ∈ get_close_matches sim (pyUpper symbol) (bs.map pyUpper) 3 (mkRat 6 10) := by
        rw [hcms]; exact List.mem_cons_self _ _
      have hsound := get_close_matches_mem _ _ _ _ _ _ hm0
      obtain ⟨s1, hs1, hs1e⟩ := List.mem_map.1 hsound.1
      have hfind : (bs.find? (fun s => pyUpper s == m0)).isSome :=
        List.find?_isSome.2 ⟨s1, hs1, by simp [hs1e]⟩
      obtain ⟨c', hc'⟩ := Option.isSome_iff_exists.1 hfind
      have hfo : findOrig bs (m0 :: rest) = some c' := by
        unfold findOrig
        rw [hc']
      rw [hfo] at h
      injection h with h
      rw [h] at hc'
      have hup : pyUpper c = m0 := by
        have hpred := List.find?_some hc'
        exact eq_of_beq hpred
      constructor
      · rw [hup]
        exact hsound.2
      · rw [hcms, hup]
        rfl

/-- A concrete similarity kernel for the C9 witness. -/
def unitSim : Str → Str → ℚ := fun a b => if a == b then 1 else 0

/-- C9, witness: the cutoff property at a concrete fuzzy resolution. -/
theorem fuzzy_map_cutoff_witness :
    mkRat 6 10 ≤ unitSim (pyUpper "EURUSD".toList) (pyUpper "EURUSD".toList) ∧
    (get_close_matches unitSim (pyUpper "EURUSD".toList)
        (["EURUSD".toList].map pyUpper) 3 (mkRat 6 10)).head? =
      some (pyUpper "EURUSD".toList) :=
  fuzzy_map_cutoff unitSim "EURUSD".toList ["EURUSD".toList] "EURUSD".toList (by decide)

end MT5
